import Mathlib

/-!
Verification of the fmu-dataio metadata assembly and validation engine.

This file shallowly embeds the claim-relevant parts of
`src/fmu/dataio/dataio.py` and `src/fmu/dataio/datastructure/meta/meta.py`:
the content validator, the settings resolver, the schema cross-field
validators, the aggregation id/filename derivation, and the case
initializer.  Collaborators that live in modules not present in the
repository snapshot (the content taxonomy, uuid hashing, environment/file
loading, configuration validation) are modelled from the specification and
marked as such in their doc comments.
-/

/-- Modelled from the spec: the FmuContext enum of the missing module
`fmu.dataio._definitions`; the spec lists the run contexts
"realization | case | case_symlink_realization | preprocessed". -/
inductive FmuContext where
  | realization
  | case_
  | case_symlink_realization
  | preprocessed
deriving DecidableEq, Repr

/-- Python runtime values as they flow through the loosely typed settings
machinery of dataio.py (strings, ints, bools, dicts, lists, paths, the
FmuContext enum and None). -/
inductive PyValue where
  | str (s : String)
  | int (n : Int)
  | bool (b : Bool)
  | dict (entries : List (String × PyValue))
  | list (elems : List PyValue)
  | path (s : String)
  | fmuCtx (c : FmuContext)
  | pyNone
deriving Repr

/-- Python exception kinds raised by the embedded code, with their messages. -/
inductive PyErr where
  | validationError (msg : String)
  | valueError (msg : String)
  | keyError (msg : String)
  | typeError (msg : String)
  | indexError
deriving DecidableEq, Repr

/-- Python truthiness for the modelled values (empty containers and empty
strings are falsy, None is falsy). -/
def PyValue.truthy : PyValue → Bool
  | .str s => !(s == "")
  | .int n => !(n == 0)
  | .bool b => b
  | .dict d => !d.isEmpty
  | .list l => !l.isEmpty
  | .path _ => true
  | .fmuCtx _ => true
  | .pyNone => false

/-- Modelled from the spec: the closed content taxonomy AllowedContent of the
missing module `fmu.dataio.datastructure._internal.internal`.  The spec treats
it as "a fixed lookup: content name → required/optional extra fields"; the
glossary names "depth", "time" and "fluid_contact" as contents, and section
4.1 states that certain contents require extra fields (the repository's own
docstring example gives extra fields for "fluid_contact").  Each entry maps a
content name to its (required, optional) extra-field names. -/
def allowedContent : List (String × (List String × List String)) :=
  [("depth", ([], [])),
   ("time", ([], [])),
   ("fluid_contact", (["contact"], ["truncated"]))]

/-- The keys of the content taxonomy (AllowedContent.model_fields). -/
def AllowedContent.model_fields : List String := allowedContent.map (·.1)

/-- Modelled from the spec: AllowedContent.requires_additional_input, true for
the contents that "require extra fields" (section 4.1). -/
def AllowedContent.requires_additional_input (name : String) : Bool :=
  match allowedContent.lookup name with
  | some (req, _) => !req.isEmpty
  | none => false

/-- Modelled from the spec: validation of a content's extra-field payload
against that content's declared schema (AllowedContent.model_validate of the
missing internal module): every required field must be present and every
given field must be a declared required or optional field. -/
def contentSchemaValidate (name : String) (fields : List (String × PyValue)) : Bool :=
  match allowedContent.lookup name with
  | none => false
  | some (req, opt) =>
      req.all (fun r => (fields.lookup r).isSome) &&
      fields.all (fun kv => req.contains kv.1 || opt.contains kv.1)

/-- Whether a modelled Python value is None. -/
def PyValue.isNone : PyValue → Bool
  | .pyNone => true
  | _ => false

/-- Whether a modelled Python value is a dict. -/
def PyValue.isDict : PyValue → Bool
  | .dict _ => true
  | _ => false

/-- The message of the ValidationError raised by `_content_validate` of
dataio.py when a content's extra-field payload fails its schema. -/
def contentFieldErrMsg (name : String) : String :=
  "The field " ++ name ++ " has one or more errors that makes it " ++
  "impossible to create valid content. The data will still be exported " ++
  "but no metadata will be made."

/-- The message of the ValueError raised by `_check_content` of dataio.py
when a content mapping's value is not itself a mapping. -/
def contentFormatMsg : String :=
  "Content is incorrectly formatted. When giving content as a dict, " ++
  "it must be formatted as: " ++
  "\x7b'mycontent': \x7bextra_key: extra_value\x7d where mycontent is a string " ++
  "and in the list of valid contents, and extra keys in associated " ++
  " dictionary must be valid keys for this content."

/-- The message of the ValidationError raised by `_check_content` of
dataio.py for a content name outside the taxonomy. -/
def invalidContentMsg (name : String) : String := "Invalid content: <" ++ name ++ ">!"

/-- The message of the ValidationError raised by `_check_content` of
dataio.py for a plain-string content that requires additional input. -/
def requiresInputMsg (name : String) : String :=
  "content " ++ name ++ " requires additional input"

/-- Embeds `_content_validate` of dataio.py: validate the extra-field payload
of a content, returning the normalized payload (model_dump with
exclude_none=True drops None-valued fields) or a ValidationError wrapping the
schema errors. -/
def content_validate (name : String) (fields : List (String × PyValue)) :
    Except PyErr PyValue :=
  if contentSchemaValidate name fields then
    .ok (.dict (fields.filter (fun kv => !kv.2.isNone)))
  else
    .error (.validationError (contentFieldErrMsg name))

/-- Embeds `_check_content` of dataio.py: check the proposed content
declaration and return the validated pair (usecontent, content_specific). -/
def check_content (proposed : PyValue) : Except PyErr (String × PyValue) :=
  let resolved : Except PyErr (String × PyValue) :=
    match proposed with
    | .pyNone => .ok ("unset", .pyNone)
    | .str s =>
        if AllowedContent.requires_additional_input s then
          .error (.validationError (requiresInputMsg s))
        else
          .ok (s, .pyNone)
    | .dict entries =>
        match entries with
        | [] => .error .indexError
        | (k, v) :: _ =>
            match v with
            | .dict _ => .ok (k, v)
            | _ => .error (.valueError contentFormatMsg)
    | _ => .error (.validationError "The 'content' must be string or dict")
  match resolved with
  | .error e => .error e
  | .ok (usecontent, content_specific) =>
      if usecontent != "unset" && !(AllowedContent.model_fields.contains usecontent) then
        .error (.validationError (invalidContentMsg usecontent))
      else if content_specific.truthy then
        match content_specific with
        | .dict fields =>
            match content_validate usecontent fields with
            | .ok v => .ok (usecontent, v)
            | .error e => .error e
        | other => .ok (usecontent, other)
      else
        .ok (usecontent, content_specific)

/-- Python runtime classes against which `_validate_variable` of dataio.py
runs its isinstance check. -/
inductive PyType where
  | strT
  | intT
  | boolT
  | dictT
  | listT
  | noneT
  | pathT
  | fmuContextT
deriving DecidableEq, Repr

/-- Python isinstance on the modelled values; note that bool is a subclass of
int in Python, so a bool is an instance of int. -/
def PyValue.isInstanceOf : PyValue → PyType → Bool
  | .str _, .strT => true
  | .int _, .intT => true
  | .bool _, .boolT => true
  | .bool _, .intT => true
  | .dict _, .dictT => true
  | .list _, .listT => true
  | .path _, .pathT => true
  | .fmuCtx _, .fmuContextT => true
  | .pyNone, .noneT => true
  | _, _ => false

/-- The outcome of evaluating one dataclass annotation inside
`_validate_variable` of dataio.py: either a tuple of runtime classes to
isinstance-check against, or a skipped check because the evaluated annotation
(or its type arguments) still mentions the typing module. -/
inductive TypeSpec where
  | types (ts : List PyType)
  | skip
deriving DecidableEq, Repr

/-- The legal settings surface of ExportData, i.e. the non-underscore entries
of the dataclass `__annotations__`, each paired with the check that
`_validate_variable` derives from its annotation string.  Plain classes map
to an isinstance tuple (Optional/Union annotations expose their argument
classes through `__args__`), while annotations that keep a typing-module
representation (for example `Optional[List[list]]`) are skipped.  ClassVar
annotations are part of `__annotations__` and hence legal keys as well. -/
def exportDataLegals : List (String × TypeSpec) :=
  [("allow_forcefolder_absolute", .types [.boolT]),
   ("arrow_fformat", .types [.strT]),
   ("case_folder", .types [.strT]),
   ("createfolder", .types [.boolT]),
   ("cube_fformat", .types [.strT]),
   ("filename_timedata_reverse", .types [.boolT]),
   ("grid_fformat", .types [.strT]),
   ("include_ertjobs", .types [.boolT]),
   ("legacy_time_format", .types [.boolT]),
   ("meta_format", .skip),
   ("polygons_fformat", .types [.strT]),
   ("points_fformat", .types [.strT]),
   ("surface_fformat", .types [.strT]),
   ("table_fformat", .types [.strT]),
   ("dict_fformat", .types [.strT]),
   ("table_include_index", .types [.boolT]),
   ("verifyfolder", .types [.boolT]),
   ("access_ssdl", .types [.dictT]),
   ("aggregation", .types [.boolT]),
   ("casepath", .types [.strT, .pathT, .noneT]),
   ("config", .types [.dictT]),
   ("content", .types [.dictT, .strT, .noneT]),
   ("depth_reference", .types [.strT]),
   ("description", .types [.strT, .listT]),
   ("display_name", .types [.strT, .noneT]),
   ("fmu_context", .types [.fmuContextT, .strT]),
   ("forcefolder", .types [.strT]),
   ("grid_model", .types [.strT, .noneT]),
   ("is_observation", .types [.boolT]),
   ("is_prediction", .types [.boolT]),
   ("name", .types [.strT]),
   ("undef_is_zero", .types [.boolT]),
   ("parent", .types [.strT]),
   ("realization", .types [.intT]),
   ("reuse_metadata_rule", .types [.strT, .noneT]),
   ("runpath", .types [.strT, .pathT, .noneT]),
   ("subfolder", .types [.strT]),
   ("tagname", .types [.strT]),
   ("timedata", .skip),
   ("unit", .types [.strT]),
   ("verbosity", .types [.strT]),
   ("vertical_domain", .types [.dictT]),
   ("workflow", .types [.strT]),
   ("table_index", .types [.listT, .noneT])]

/-- Embeds `_validate_variable` of dataio.py: an unsupported key or a value of
a wrong runtime type raises a ValidationError; checks for typing-module
annotations are skipped. -/
def validate_variable (key : String) (value : PyValue)
    (legals : List (String × TypeSpec)) : Except PyErr Unit :=
  match legals.lookup key with
  | none => .error (.validationError ("The input key '" ++ key ++ "' is not supported"))
  | some .skip => .ok ()
  | some (.types ts) =>
      if ts.any (fun t => value.isInstanceOf t) then .ok ()
      else .error (.validationError ("The value of '" ++ key ++ "' is of wrong type"))

/-- The attribute map of an ExportData instance: Python object attributes as
an association list (first binding wins on lookup). -/
abbrev Settings := List (String × PyValue)

/-- Python setattr on the modelled attribute map. -/
def setAttr (s : Settings) (k : String) (v : PyValue) : Settings := (k, v) :: s

/-- Python getattr on the modelled attribute map. -/
def getAttr (s : Settings) (k : String) : Option PyValue := s.lookup k

/-- Python getattr with a fallback value. -/
def getAttrD (s : Settings) (k : String) (d : PyValue) : PyValue := (s.lookup k).getD d

/-- The settings-update loop shared by `__post_init__` and
`_update_check_settings` of dataio.py: each new (key, value) pair is
validated by `_validate_variable` and then set on the instance; the first
invalid pair aborts with its error. -/
def settingsLoop (legals : List (String × TypeSpec)) :
    List (String × PyValue) → Settings → Except PyErr Settings
  | [], s => .ok s
  | (k, v) :: rest, s =>
      (validate_variable k v legals).bind
        (fun _ => settingsLoop legals rest (setAttr s k v))

/-- Modelled from the spec: FmuContext.get of the missing module
`fmu.dataio._definitions`, resolving a user-supplied value to the fmu_context
enum and failing on an unknown name. -/
def FmuContext.get : PyValue → Except PyErr FmuContext
  | .fmuCtx c => .ok c
  | .str s =>
      if s = "realization" then .ok .realization
      else if s = "case" then .ok .case_
      else if s = "case_symlink_realization" then .ok .case_symlink_realization
      else if s = "preprocessed" then .ok .preprocessed
      else .error (.validationError ("Invalid fmu_context " ++ s))
  | _ => .error (.validationError "Invalid fmu_context")

/-- Embeds `_validate_content_key` of dataio.py: validate the instance's
content declaration and store the derived _usecontent and _content_specific
attributes. -/
def validate_content_key (s : Settings) : Except PyErr Settings :=
  match check_content (getAttrD s "content" .pyNone) with
  | .error e => .error e
  | .ok (usecontent, content_specific) =>
      .ok (setAttr (setAttr s "_usecontent" (.str usecontent))
            "_content_specific" content_specific)

/-- Embeds `_validate_fmucontext_key` of dataio.py: when the stored
fmu_context is still a string, resolve it through FmuContext.get. -/
def validate_fmucontext_key (s : Settings) : Except PyErr Settings :=
  match getAttrD s "fmu_context" .pyNone with
  | .str str =>
      match FmuContext.get (.str str) with
      | .error e => .error e
      | .ok c => .ok (setAttr s "fmu_context" (.fmuCtx c))
  | _ => .ok s

/-- The message of the ValueError raised when a call-time settings update
tries to override the config key. -/
def configUpdateErrMsg : String := "Cannot have 'config' outside instance initialization"

/-- Embeds `_update_check_settings` of dataio.py: call-time keyword updates;
the legal surface is the dataclass annotations minus config, an update
naming config fails with a ValueError, every other pair is type-checked and
set, and the content and fmu_context declarations are re-validated. -/
def update_check_settings (newsettings : List (String × PyValue)) (s : Settings) :
    Except PyErr Settings :=
  let legals := exportDataLegals.filter (fun kv => kv.1 ≠ "config")
  if (newsettings.map (·.1)).contains "config" then
    .error (.valueError configUpdateErrMsg)
  else
    match settingsLoop legals newsettings s with
    | .error e => .error e
    | .ok s =>
        match validate_content_key s with
        | .error e => .error e
        | .ok s => validate_fmucontext_key s

/-- Python dict item assignment: overwrite an existing key in place, append a
new key at the end (insertion order preserved). -/
def dictSet : List (String × PyValue) → String → PyValue → List (String × PyValue)
  | [], k, v => [(k, v)]
  | (k', v') :: rest, k, v =>
      if k' = k then (k, v) :: rest else (k', v') :: dictSet rest k v

/-- Embeds `_update_globalconfig_from_settings` of dataio.py: when access_ssdl
is set, the (copied) global config's access.ssdl value is replaced by it.
Indexing config["access"] raises a KeyError when the key is missing and a
TypeError when config or its access value is not a dict. -/
def update_globalconfig_from_settings (s : Settings) : Except PyErr Settings :=
  let ssdl := getAttrD s "access_ssdl" (.dict [])
  let newcfg : Except PyErr PyValue :=
    if ssdl.truthy then
      match getAttrD s "config" (.dict []) with
      | .dict entries =>
          match entries.lookup "access" with
          | none => .error (.keyError "access")
          | some accessVal =>
              match accessVal with
              | .dict accessEntries =>
                  .ok (.dict (dictSet entries "access"
                    (.dict (dictSet accessEntries "ssdl" ssdl))))
              | _ => .error (.typeError "argument of type is not iterable")
      | _ => .error (.typeError "object is not subscriptable")
    else
      .ok (getAttrD s "config" (.dict []))
  newcfg.bind (fun cfg => .ok (setAttr s "config" cfg))

/-- The rootpath used when running inside RMS: two directories above the
process working directory (pwd / "../../." resolved). -/
def rmsRootOf (pwd : String) : String :=
  let comps := (pwd.splitOn "/").filter (fun c => c ≠ "" && c ≠ ".")
  "/" ++ String.intercalate "/" (comps.dropLast.dropLast)

/-- Embeds `_establish_pwd_rootpath` of dataio.py: store the process working
directory, and the rootpath, which is the casepath when one is set (truthy),
two levels above pwd when running inside RMS, and pwd otherwise. -/
def establish_pwd_rootpath (pwd : String) (insideRms : Bool) (s : Settings) : Settings :=
  let s := setAttr s "_pwd" (.str pwd)
  let casepath := getAttrD s "casepath" .pyNone
  let root :=
    match casepath with
    | .str c => if c ≠ "" then c else (if insideRms then rmsRootOf pwd else pwd)
    | .path c => c
    | _ => if insideRms then rmsRootOf pwd else pwd
  setAttr s "_rootpath" (.str root)

/-- Embeds the settings pipeline of `ExportData.__post_init__` of dataio.py.
External collaborators are parameters: isValidCfg and roundtripCfg stand for
`global_configuration.is_valid` and `.roundtrip` (missing module), envSettings
is the parsed FMU_DATAIO_CONFIG file when that variable is set, envGlobal the
parsed FMU_GLOBAL_CONFIG file (already defaulted to an empty dict when the
file fails to load, mirroring `some_config_from_env(...) or {}`), pwd and
insideRms the filesystem context.  The steps, in source order: resolve
fmu_context, unconditionally reset vertical_domain to its default, apply the
environment settings (legal surface including config), override config from
the environment, validate the content key, merge access_ssdl into the config,
check config validity (roundtripping when valid), and establish pwd/rootpath. -/
def post_init (isValidCfg : PyValue → Bool) (roundtripCfg : PyValue → PyValue)
    (envSettings : Option (List (String × PyValue))) (envGlobal : Option PyValue)
    (pwd : String) (insideRms : Bool) (s : Settings) : Except PyErr Settings :=
  (FmuContext.get (getAttrD s "fmu_context" (.str "realization"))).bind (fun ctx =>
    let s := setAttr s "fmu_context" (.fmuCtx ctx)
    let s := setAttr s "vertical_domain" (.dict [("depth", .str "msl")])
    (match envSettings with
     | none => Except.ok s
     | some ext => settingsLoop exportDataLegals ext s).bind (fun s =>
      let s :=
        match envGlobal with
        | none => s
        | some cfg => setAttr s "config" cfg
      (validate_content_key s).bind (fun s =>
        (update_globalconfig_from_settings s).bind (fun s =>
          let cfg := getAttrD s "config" (.dict [])
          let valid := isValidCfg cfg
          let s := setAttr s "_config_is_valid" (.bool valid)
          let s := if valid then setAttr s "config" (roundtripCfg cfg) else s
          .ok (establish_pwd_rootpath pwd insideRms s)))))

/-- The dataclass defaults of the ExportData input keys, as the attribute map
of a freshly constructed instance before `__post_init__` runs (instance
fields in declaration order; class variables resolve through the class and
are listed first). -/
def exportDataDefaults : Settings :=
  [("allow_forcefolder_absolute", .bool false),
   ("arrow_fformat", .str "arrow"),
   ("case_folder", .str "share/metadata"),
   ("createfolder", .bool true),
   ("cube_fformat", .str "segy"),
   ("filename_timedata_reverse", .bool false),
   ("grid_fformat", .str "roff"),
   ("include_ertjobs", .bool false),
   ("legacy_time_format", .bool false),
   ("meta_format", .str "yaml"),
   ("polygons_fformat", .str "csv"),
   ("points_fformat", .str "csv"),
   ("surface_fformat", .str "irap_binary"),
   ("table_fformat", .str "csv"),
   ("dict_fformat", .str "json"),
   ("table_include_index", .bool false),
   ("verifyfolder", .bool true),
   ("access_ssdl", .dict []),
   ("aggregation", .bool false),
   ("casepath", .pyNone),
   ("config", .dict []),
   ("content", .pyNone),
   ("depth_reference", .str "msl"),
   ("description", .str ""),
   ("display_name", .pyNone),
   ("fmu_context", .fmuCtx .realization),
   ("forcefolder", .str ""),
   ("grid_model", .pyNone),
   ("is_observation", .bool false),
   ("is_prediction", .bool true),
   ("name", .str ""),
   ("undef_is_zero", .bool false),
   ("parent", .str ""),
   ("realization", .int (-999)),
   ("reuse_metadata_rule", .pyNone),
   ("runpath", .pyNone),
   ("subfolder", .str ""),
   ("tagname", .str ""),
   ("timedata", .pyNone),
   ("unit", .str ""),
   ("verbosity", .str "DEPRECATED"),
   ("vertical_domain", .dict []),
   ("workflow", .str ""),
   ("table_index", .pyNone)]

/-- The message of the error raised when both aggregation and realization are
set on an fmu block. -/
def aggRealExclusiveMsg : String :=
  "Both 'aggregation' and 'realization' cannot be set " ++
  "at the same time. Please set only one."

/-- Embeds `FMUAttributes._dependencies_aggregation_realization` of meta.py: a
before-mode validator on the raw values dict of the fmu block; when both the
aggregation and the realization entries are set (truthy), validation fails. -/
def dependencies_aggregation_realization (values : List (String × PyValue)) :
    Except PyErr (List (String × PyValue)) :=
  let aggregation := (values.lookup "aggregation").getD .pyNone
  let realization := (values.lookup "realization").getD .pyNone
  if aggregation.truthy && realization.truthy then
    .error (.valueError aggRealExclusiveMsg)
  else
    .ok values

/-- The document classes of the metadata schema (enums.FMUClass, as used by
the discriminated union in meta.py). -/
inductive FMUClass where
  | case_
  | surface
  | table
  | cpgrid
  | cpgrid_property
  | polygons
  | cube
  | well
  | points
  | dictionary
deriving DecidableEq, Repr

/-- The Root model of meta.py as far as `_check_class_data_spec` consults it:
a CaseMetadata document (which has no data attribute) or an ObjectMetadata
document carrying its class tag and its data block's optional spec field
(self.root.data.root.spec; the rest of the data block is irrelevant to this
validator). -/
inductive RootMeta where
  | caseMeta
  | objectMeta (class_ : FMUClass) (dataSpec : Option PyValue)
deriving Repr

/-- The message of the error raised when a table or surface document lacks
the spec field. -/
def classDataSpecMsg : String :=
  "When 'class' is 'table' or 'surface', " ++
  "'data' must contain the 'spec' field."

/-- Embeds `Root._check_class_data_spec` of meta.py: an after-mode validator
requiring the data block's spec field to be present whenever the document
class is table or surface. -/
def check_class_data_spec : RootMeta → Except PyErr RootMeta
  | .caseMeta => .ok .caseMeta
  | .objectMeta c spec =>
      if (c = .table || c = .surface) && spec.isNone then
        .error (.valueError classDataSpecMsg)
      else
        .ok (.objectMeta c spec)

/-- Python str.isascii: every character is a code point below 128. -/
def pyIsAscii (s : String) : Bool := s.data.all (fun c => c.toNat < 128)

/-- Python str() of a modelled value, as far as the file-block validator needs
it (path-like values render as their string). -/
def pyStr : PyValue → String
  | .str s => s
  | .path s => s
  | .int n => toString n
  | .bool b => if b then "True" else "False"
  | .pyNone => "None"
  | _ => "<object>"

/-- The message of the error raised for a non-ASCII absolute path. -/
def nonAsciiMsg (path : String) : String :=
  "Path has non-ascii elements which is not supported: " ++ path

/-- Embeds `File._check_for_non_ascii_in_path` of meta.py: a before-mode
validator on the raw values dict of the file block; a truthy absolute_path
whose string form contains non-ASCII characters fails validation, every other
values dict passes through unchanged. -/
def check_for_non_ascii_in_path (values : List (String × PyValue)) :
    Except PyErr (List (String × PyValue)) :=
  let path := (values.lookup "absolute_path").getD .pyNone
  if path.truthy && !(pyIsAscii (pyStr path)) then
    .error (.valueError (nonAsciiMsg (pyStr path)))
  else
    .ok values

/-- Modelled from the spec: uuid_from_string of the missing module
`fmu.dataio._utils`; the spec only requires it to "deterministically hash"
its input, so any fixed pure function is a faithful model. -/
def uuid_from_string (s : String) : String :=
  toString (s.data.foldl (fun h c => (h * 31 + c.toNat) % (2 ^ 128)) 7)

/-- Python sorted() on a list of strings: lexicographic ascending sort. -/
def pySorted (l : List String) : List String := l.insertionSort (· ≤ ·)

/-- Embeds `AggregatedData._generate_aggr_uuid` of dataio.py: hash the
concatenation of the sorted source realization uuids. -/
def generate_aggr_uuid (uuids : List String) : String :=
  uuid_from_string (String.join (pySorted uuids))

/-- The aggregation id stored by `AggregatedData._generate_aggrd_metadata` of
dataio.py: the explicit aggregation_id when one was supplied, otherwise the
id derived from the source realization uuids. -/
def resolve_aggregation_id (aggregation_id : Option String) (uuids : List String) : String :=
  match aggregation_id with
  | none => generate_aggr_uuid uuids
  | some a => a

/-- Python str.replace on character lists, fuelled for structural recursion
(one unit of fuel per character position; a nonempty pattern consumes at
least one character per match, so fuel = length of the list is enough): at
each position, if the (nonempty) pattern matches, emit the replacement and
skip the match, otherwise keep the character; matches are found left to
right and do not overlap. -/
def pyReplaceFuel (pat repl : List Char) : Nat → List Char → List Char
  | 0, l => l
  | _ + 1, [] => []
  | fuel + 1, c :: rest =>
      if !pat.isEmpty && pat.isPrefixOf (c :: rest) then
        repl ++ pyReplaceFuel pat repl fuel ((c :: rest).drop pat.length)
      else
        c :: pyReplaceFuel pat repl fuel rest

/-- Python str.replace with a nonempty pattern (the embedded code only ever
replaces the nonempty string realiname + "/"). -/
def pyReplace (s pat repl : String) : String :=
  ⟨pyReplaceFuel pat.data repl.data s.data.length s.data⟩

/-- Python substring containment (pat in s) on character lists. -/
def containsSub (pat : List Char) : List Char → Bool
  | [] => pat.isEmpty
  | c :: rest => pat.isPrefixOf (c :: rest) || containsSub pat rest

/-- Split a character list on a separator character (Python str.split with a
single-character separator). -/
def splitChar (sep : Char) : List Char → List (List Char)
  | [] => [[]]
  | c :: rest =>
      match splitChar sep rest with
      | [] => [[]]
      | h :: t => if c = sep then [] :: h :: t else (c :: h) :: t

/-- Whether a string starts with the path separator. -/
def startsSlash (s : String) : Bool :=
  match s.data with
  | [] => false
  | c :: _ => c = '/'

/-- The parts of a pathlib PurePath built from a string: split on the
separator, dropping empty segments and single-dot segments. -/
def pathParts (s : String) : List String :=
  ((splitChar '/' s.data).map String.mk).filter (fun c => c ≠ "" && c ≠ ".")

/-- A pathlib PurePosixPath: whether it is absolute, and its parts. -/
structure PyPath where
  absolute : Bool
  parts : List String
deriving DecidableEq, Repr

/-- Parse a string into a PyPath (pathlib PurePath(s)). -/
def PyPath.parse (s : String) : PyPath := ⟨startsSlash s, pathParts s⟩

/-- Join path parts with the separator (the inverse of pathParts on
well-formed parts). -/
def joinParts : List String → String
  | [] => ""
  | [p] => p
  | p :: rest => p ++ "/" ++ joinParts rest

/-- Render a PyPath back to a string (str() of a PurePosixPath). -/
def PyPath.render (p : PyPath) : String :=
  if p.parts.isEmpty then (if p.absolute then "/" else ".")
  else (if p.absolute then "/" else "") ++ joinParts p.parts

/-- The final component of a PyPath (PurePath.name; empty for the root or the
dot path). -/
def PyPath.name (p : PyPath) : String := p.parts.getLastD ""

/-- The parent of a PyPath (PurePath.parent). -/
def PyPath.parent (p : PyPath) : PyPath := ⟨p.absolute, p.parts.dropLast⟩

/-- The index of the last occurrence of a character in a list. -/
def rfindIdx (c : Char) : List Char → Option Nat
  | [] => none
  | x :: rest =>
      match rfindIdx c rest with
      | some i => some (i + 1)
      | none => if x = c then some 0 else none

/-- The suffix of a path name as pathlib computes it: the part of the name
from its last dot, provided that dot is neither the first nor the last
character; otherwise the empty string. -/
def pySuffix (name : String) : String :=
  match rfindIdx '.' name.data with
  | some i => if 0 < i ∧ i < name.data.length - 1 then ⟨name.data.drop i⟩ else ""
  | none => ""

/-- The stem of a path name as pathlib computes it: the name with its suffix
removed. -/
def pyStem (name : String) : String :=
  match rfindIdx '.' name.data with
  | some i => if 0 < i ∧ i < name.data.length - 1 then ⟨name.data.take i⟩ else name
  | none => name

/-- Join a PyPath with a further string segment (PurePath / str): an absolute
child replaces the parent entirely, otherwise the child's parts are
appended. -/
def PyPath.joinStr (p : PyPath) (child : String) : PyPath :=
  let c := PyPath.parse child
  if c.absolute then c else ⟨p.absolute, p.parts ++ c.parts⟩

/-- PurePath.with_suffix: replace the suffix of the final component.  The
suffix must be empty or dot-initiated and separator-free, and the path must
have a nonempty name; the old suffix (when any) is cut off and the new suffix
appended. -/
def PyPath.withSuffix (p : PyPath) (suffix : String) : Except PyErr PyPath :=
  if suffix.data.contains '/' then
    .error (.valueError ("Invalid suffix " ++ suffix))
  else if (suffix != "" && suffix.data.head? != some '.') || suffix == "." then
    .error (.valueError ("Invalid suffix " ++ suffix))
  else if p.name = "" then
    .error (.valueError ("PyPath has an empty name"))
  else
    let old := pySuffix p.name
    let nm :=
      (if old = "" then p.name else ⟨p.name.data.take (p.name.data.length - old.data.length)⟩)
      ++ suffix
    .ok ⟨p.absolute, p.parts.dropLast ++ [nm]⟩

/-- The template fields of the first source document that
`AggregatedData._construct_filename` of dataio.py consults:
fmu.realization.name and the file block's relative and optional absolute
path. -/
structure AggrTemplate where
  realizationName : String
  relativePath : String
  absolutePath : Option String
deriving DecidableEq, Repr

/-- The AggregatedData settings consulted by `_construct_filename` of
dataio.py. -/
structure AggrSettings where
  casepath : Option String
  name : String
  operation : String
  tagname : String
deriving DecidableEq, Repr

/-- The message of the ValueError raised for an explicitly given but
non-existing casepath. -/
def casepathMissingMsg (cp : String) : String :=
  "The given casepath " ++ cp ++ " does not exist. It must exist in advance!"

/-- Embeds `AggregatedData._construct_filename` of dataio.py.  The filesystem
is the pathExists parameter (casepath.exists()).  From the template's paths,
the realization folder segment (realiname + "/") is stripped; the new file
stem is stem--operation, unless an explicit name was set (in which case a
UserWarning is not emitted), and --tagname is appended when a tagname is
set; an explicitly given casepath must exist and then replaces the root of
the absolute path. -/
def construct_filename (pathExists : String → Bool) (ag : AggrSettings)
    (template : AggrTemplate) : Except PyErr (String × Option String) :=
  let realiname := template.realizationName
  let relpath := template.relativePath
  let abspath : Option String :=
    match template.absolutePath with
    | some a => if a ≠ "" then some a else none
    | none => none
  let withCase : Except PyErr (Option String) :=
    match ag.casepath with
    | some cp =>
        if cp ≠ "" then
          if pathExists cp then
            .ok (some (PyPath.render ((PyPath.parse cp).joinStr relpath)))
          else
            .error (.valueError (casepathMissingMsg cp))
        else .ok abspath
    | none => .ok abspath
  match withCase with
  | .error e => .error e
  | .ok abspath =>
      let relpath := pyReplace relpath (realiname ++ "/") ""
      let relP := PyPath.parse relpath
      let abspath := abspath.map (fun a => pyReplace a (realiname ++ "/") "")
      let suffix := pySuffix relP.name
      let stem := pyStem relP.name
      let usename := if ag.name = "" then stem ++ "--" ++ ag.operation else ag.name
      let usename := if ag.tagname ≠ "" then usename ++ "--" ++ ag.tagname else usename
      match (relP.parent.joinStr usename).withSuffix suffix with
      | .error e => .error e
      | .ok relname =>
          match abspath with
          | none => .ok (PyPath.render relname, none)
          | some a =>
              match ((PyPath.parse a).parent.joinStr usename).withSuffix suffix with
              | .error e => .error e
              | .ok absname => .ok (PyPath.render relname, some (PyPath.render absname))

/-- The case metadata document assembled by `InitializeCase.generate_metadata`
of dataio.py (the CaseSchema shape): masterdata/access/model come from the
validated global configuration, case name/uuid/user and the optional
description from the initializer. -/
structure CaseDoc where
  masterdata : PyValue
  access : PyValue
  model : PyValue
  casename : String
  caseuuid : String
  caseuser : String
  description : Option String
deriving Repr

/-- The filesystem as the case initializer sees it: the set of existing
directories and the case metadata files on disk (path to document). -/
structure FS where
  dirs : List String
  caseFiles : List (String × CaseDoc)
deriving Repr

/-- The InitializeCase instance: the relevant blocks of the (already
validated) global configuration, the case root folder, case name, user and
optional description. -/
structure InitializeCase where
  configMasterdata : PyValue
  configAccess : PyValue
  configModel : PyValue
  rootfolder : String
  casename : String
  caseuser : String
  description : Option String

/-- The fixed case metadata file location: rootfolder/share/metadata/fmu_case.yml
(set in `InitializeCase.__post_init__` of dataio.py). -/
def InitializeCase.metafile (ic : InitializeCase) : String :=
  ic.rootfolder ++ "/share/metadata/fmu_case.yml"

/-- Embeds `InitializeCase._establish_metadata_files` of dataio.py: create
the share/metadata directory when missing, and report whether the case
metadata file does NOT yet exist (True means it can be established). -/
def InitializeCase.establish_metadata_files (ic : InitializeCase) (fs : FS) : Bool × FS :=
  let parent := ic.rootfolder ++ "/share/metadata"
  let fs := if fs.dirs.contains parent then fs else { fs with dirs := parent :: fs.dirs }
  (!(fs.caseFiles.map (·.1)).contains ic.metafile, fs)

/-- Embeds `InitializeCase.generate_metadata` of dataio.py: when the case
metadata file already exists, warn and return an empty result; otherwise
assemble and return the case document (with a freshly drawn case uuid,
passed in as the freshUuid parameter since uuid.uuid4() is nondeterministic).
The result is (returned document or none for the empty dict, whether the
already-exists warning was emitted, filesystem).  Note that this method does
not itself write any file. -/
def InitializeCase.generate_metadata (ic : InitializeCase) (freshUuid : String)
    (fs : FS) : Option CaseDoc × Bool × FS :=
  match ic.establish_metadata_files fs with
  | (canEstablish, fs) =>
      if !canEstablish then
        (none, true, fs)
      else
        (some { masterdata := ic.configMasterdata
                access := ic.configAccess
                model := ic.configModel
                casename := ic.casename
                caseuuid := freshUuid
                caseuser := ic.caseuser
                description := ic.description }, false, fs)

/-- Embeds `InitializeCase.export` of dataio.py: generate the case metadata
and, when non-empty, persist it to the metafile (export_metadata_file of the
missing `fmu.dataio._utils`, modelled from the spec as writing the document
at the metafile path); the metafile path is returned either way.  The middle
component reports whether the already-exists warning was emitted. -/
def InitializeCase.export (ic : InitializeCase) (freshUuid : String) (fs : FS) :
    String × Bool × FS :=
  match ic.generate_metadata freshUuid fs with
  | (some doc, warned, fs) =>
      (ic.metafile, warned, { fs with caseFiles := (ic.metafile, doc) :: fs.caseFiles })
  | (none, warned, fs) => (ic.metafile, warned, fs)

/-!
Theorems.  Each claim C1..C10 has exactly one main theorem (and, where the
theorem carries hypotheses, a closed witness instantiating it); corrected
claims additionally have a closed counterexample refuting the original
wording.
-/

/-- C1: for every fmu block accepted by schema validation, aggregation and
realization are never both set: whenever both values are present (truthy) in
the raw values dict, the before-mode validator fails, so no validated
FMUAttributes document carries both. -/
theorem fmu_aggregation_realization_exclusive (values : List (String × PyValue))
    (hagg : ((values.lookup "aggregation").getD .pyNone).truthy = true)
    (hreal : ((values.lookup "realization").getD .pyNone).truthy = true) :
    dependencies_aggregation_realization values = .error (.valueError aggRealExclusiveMsg) := by
  unfold dependencies_aggregation_realization
  simp [hagg, hreal]

/-- Witness for C1 at a concrete values dict with both blocks set. -/
theorem fmu_aggregation_realization_exclusive_witness :
    dependencies_aggregation_realization
      [("aggregation", .dict [("operation", .str "mean")]),
       ("realization", .dict [("id", .int 3)])] =
      .error (.valueError aggRealExclusiveMsg) :=
  fmu_aggregation_realization_exclusive _ rfl rfl

/-- C5: root-model validation of a table or surface document fails exactly
when the data block's spec field is absent; documents of any other class
(and case documents, which have no data block) always pass this check. -/
theorem class_data_spec_dependency (c : FMUClass) (spec : Option PyValue) :
    ((c = .table ∨ c = .surface) →
      (check_class_data_spec (.objectMeta c spec) = .error (.valueError classDataSpecMsg) ↔
        spec = none)) ∧
    ((c ≠ .table ∧ c ≠ .surface) →
      check_class_data_spec (.objectMeta c spec) = .ok (.objectMeta c spec)) ∧
    check_class_data_spec .caseMeta = .ok .caseMeta := by
  refine ⟨?_, ?_, rfl⟩
  · rintro (rfl | rfl) <;> cases spec <;> simp [check_class_data_spec]
  · rintro ⟨h1, h2⟩
    cases c <;> simp_all [check_class_data_spec]

/-- Witness for C5 at class table: a missing spec is rejected and a present
spec accepted; a cube document with a missing spec is accepted. -/
theorem class_data_spec_dependency_witness :
    check_class_data_spec (.objectMeta .table none) = .error (.valueError classDataSpecMsg) ∧
    check_class_data_spec (.objectMeta .cube none) = .ok (.objectMeta .cube none) := by
  constructor
  · exact ((class_data_spec_dependency .table none).1 (Or.inl rfl)).mpr rfl
  · exact (class_data_spec_dependency .cube none).2.1 (by simp)

/-- C7 counterexample: a file block whose relative_path contains non-ASCII
characters (and which has no absolute_path) passes the path validator
unchanged, refuting the claim that non-ASCII characters are rejected
regardless of which path field contains them. -/
theorem nonascii_relative_path_passes :
    pyIsAscii "maps/relé.gri" = false ∧
    check_for_non_ascii_in_path [("relative_path", .str "maps/relé.gri")] =
      .ok [("relative_path", .str "maps/relé.gri")] := by
  exact ⟨rfl, rfl⟩

/-- C7 (amended): only the absolute_path field is screened for non-ASCII
characters: a truthy non-ASCII absolute_path is rejected, while a file block
without a truthy absolute_path, or with an all-ASCII absolute_path, passes
unchanged whatever its relative_path contains. -/
theorem nonascii_absolute_path_check (values : List (String × PyValue)) :
    (∀ p, values.lookup "absolute_path" = some (.str p) → p ≠ "" → pyIsAscii p = false →
      check_for_non_ascii_in_path values = .error (.valueError (nonAsciiMsg p))) ∧
    (((values.lookup "absolute_path").getD .pyNone).truthy = false →
      check_for_non_ascii_in_path values = .ok values) ∧
    (∀ p, values.lookup "absolute_path" = some (.str p) → pyIsAscii p = true →
      check_for_non_ascii_in_path values = .ok values) := by
  refine ⟨?_, ?_, ?_⟩
  · intro p hp hne hascii
    unfold check_for_non_ascii_in_path
    rw [hp]
    simp [PyValue.truthy, pyStr, hascii, hne]
  · intro hfalsy
    unfold check_for_non_ascii_in_path
    simp [hfalsy]
  · intro p hp hascii
    unfold check_for_non_ascii_in_path
    rw [hp]
    simp [pyStr, hascii]

/-- Witness for C7 (amended) at a concrete non-ASCII absolute path. -/
theorem nonascii_absolute_path_check_witness :
    check_for_non_ascii_in_path [("absolute_path", .str "/scratch/relé.gri")] =
      .error (.valueError (nonAsciiMsg "/scratch/relé.gri")) :=
  (nonascii_absolute_path_check _).1 "/scratch/relé.gri" rfl (by decide) (by decide)

/-- Helper: a name outside the taxonomy has no entry in the content lookup. -/
theorem allowedContent_lookup_none (s : String)
    (hs : s ∉ AllowedContent.model_fields) : allowedContent.lookup s = none := by
  have h : ¬ (s = "depth" ∨ s = "time" ∨ s = "fluid_contact") := by
    simpa [AllowedContent.model_fields, allowedContent] using hs
  push_neg at h
  obtain ⟨h1, h2, h3⟩ := h
  have e1 : (s == "depth") = false := beq_eq_false_iff_ne.mpr h1
  have e2 : (s == "time") = false := beq_eq_false_iff_ne.mpr h2
  have e3 : (s == "fluid_contact") = false := beq_eq_false_iff_ne.mpr h3
  simp [allowedContent, List.lookup, e1, e2, e3]

/-- Helper: a name outside the taxonomy is not contained in model_fields. -/
theorem model_fields_contains_false (s : String)
    (hs : s ∉ AllowedContent.model_fields) :
    AllowedContent.model_fields.contains s = false := by
  simpa using hs

/-- C2 counterexample: the taxonomy member fluid_contact requires additional
input, so a plain-string declaration of it makes the content validator raise
instead of returning the pair (content, None). -/
theorem content_requires_input_not_identity :
    "fluid_contact" ∈ AllowedContent.model_fields ∧
    check_content (.str "fluid_contact") =
      .error (.validationError (requiresInputMsg "fluid_contact")) :=
  ⟨by decide, rfl⟩

/-- C2 (amended): for every content string in the taxonomy that does not
require additional input, the content validator returns the pair
(content, None). -/
theorem content_valid_string_roundtrip (s : String)
    (hmem : s ∈ AllowedContent.model_fields)
    (hreq : AllowedContent.requires_additional_input s = false) :
    check_content (.str s) = .ok (s, .pyNone) := by
  have h : s = "depth" ∨ s = "time" ∨ s = "fluid_contact" := by
    simpa [AllowedContent.model_fields, allowedContent] using hmem
  rcases h with rfl | rfl | rfl
  · rfl
  · rfl
  · exact absurd hreq (by decide)

/-- Witness for C2 (amended) at the content string depth. -/
theorem content_valid_string_roundtrip_witness :
    check_content (.str "depth") = .ok ("depth", .pyNone) :=
  content_valid_string_roundtrip "depth" (by decide) (by decide)

/-- C3 counterexample: the string "unset" is not a taxonomy member, yet the
content validator accepts it (it is compared against the sentinel before the
taxonomy test), refuting the claim that every non-member resolved name
raises a ValidationError. -/
theorem content_unset_string_accepted :
    "unset" ∉ AllowedContent.model_fields ∧
    check_content (.str "unset") = .ok ("unset", .pyNone) :=
  ⟨by decide, rfl⟩

/-- C3 (amended): an absent declaration resolves to ("unset", None) with no
error; a declaration whose resolved name is outside the taxonomy fails -
with a ValidationError naming the content for a plain string or for a
mapping whose value is a mapping, and with the formatting ValueError for a
mapping whose value is not a mapping - except that the literal string
"unset" is treated like the absent sentinel and accepted. -/
theorem content_invalid_name_errors (s k : String)
    (fields entries : List (String × PyValue)) (v : PyValue)
    (hs : s ∉ AllowedContent.model_fields) (hsu : s ≠ "unset")
    (hk : k ∉ AllowedContent.model_fields) (hku : k ≠ "unset")
    (hv : v.isDict = false) :
    check_content .pyNone = .ok ("unset", .pyNone) ∧
    check_content (.str s) = .error (.validationError (invalidContentMsg s)) ∧
    check_content (.dict ((k, .dict fields) :: entries)) =
      .error (.validationError (invalidContentMsg k)) ∧
    check_content (.dict ((k, v) :: entries)) = .error (.valueError contentFormatMsg) := by
  refine ⟨rfl, ?_, ?_, ?_⟩
  · have hreq : AllowedContent.requires_additional_input s = false := by
      simp [AllowedContent.requires_additional_input, allowedContent_lookup_none s hs]
    unfold check_content
    simp [hreq, hsu, hs]
  · unfold check_content
    simp [hku, hk]
  · unfold check_content
    cases v <;> simp_all [PyValue.isDict]

/-- Witness for C3 (amended) at concrete out-of-taxonomy names. -/
theorem content_invalid_name_errors_witness :
    check_content .pyNone = .ok ("unset", .pyNone) ∧
    check_content (.str "bogus") = .error (.validationError (invalidContentMsg "bogus")) ∧
    check_content (.dict [("alsobogus", .dict [("a", .pyNone)])]) =
      .error (.validationError (invalidContentMsg "alsobogus")) ∧
    check_content (.dict [("alsobogus", .int 3)]) = .error (.valueError contentFormatMsg) :=
  content_invalid_name_errors "bogus" "alsobogus" [("a", .pyNone)] [] (.int 3)
    (by decide) (by decide) (by decide) (by decide) rfl

/-- Helper: decomposition of a successful Except bind. -/
theorem except_bind_ok {α β γ : Type} (x : Except γ α) (f : α → Except γ β) (b : β)
    (h : x.bind f = .ok b) : ∃ a, x = .ok a ∧ f a = .ok b := by
  cases x with
  | error e => simp [Except.bind] at h
  | ok a => exact ⟨a, rfl, by simpa [Except.bind] using h⟩

/-- Helper: decomposition of a failing Except bind. -/
theorem except_bind_error {α β γ : Type} (x : Except γ α) (f : α → Except γ β) (e : γ)
    (h : x.bind f = .error e) : x = .error e ∨ ∃ a, x = .ok a ∧ f a = .error e := by
  cases x with
  | error e2 =>
      left
      simp only [Except.bind] at h
      injection h with h2
      rw [h2]
  | ok a =>
      right
      exact ⟨a, rfl, by simpa [Except.bind] using h⟩

/-- Helper: the per-key validator only ever raises ValidationErrors. -/
theorem validate_variable_error_validation (k : String) (v : PyValue)
    (legals : List (String × TypeSpec)) (e : PyErr)
    (h : validate_variable k v legals = .error e) : ∃ m, e = .validationError m := by
  unfold validate_variable at h
  split at h
  · injection h with h2
    exact ⟨_, h2.symm⟩
  · cases h
  · split at h
    · cases h
    · injection h with h2
      exact ⟨_, h2.symm⟩

/-- Helper: the settings-update loop only ever raises ValidationErrors. -/
theorem settingsLoop_error_validation (legals : List (String × TypeSpec))
    (news : List (String × PyValue)) (s : Settings) (e : PyErr)
    (h : settingsLoop legals news s = .error e) : ∃ m, e = .validationError m := by
  induction news generalizing s with
  | nil => simp [settingsLoop] at h
  | cons kv rest ih =>
      obtain ⟨k, v⟩ := kv
      unfold settingsLoop at h
      rcases except_bind_error _ _ _ h with h1 | ⟨u, _, h2⟩
      · exact validate_variable_error_validation k v legals e h1
      · exact ih _ h2

/-- Helper: classification of the errors the content checker can raise: a
ValidationError, the formatting ValueError, or the IndexError of an empty
mapping. -/
theorem check_content_error_cases (p : PyValue) (e : PyErr)
    (h : check_content p = .error e) :
    (∃ m, e = .validationError m) ∨ e = .valueError contentFormatMsg ∨ e = .indexError := by
  rcases p with s | n | b | entries | els | ps | c | _
  case pyNone => simp [check_content] at h
  case int => simp [check_content] at h; exact Or.inl ⟨_, h.symm⟩
  case bool => simp [check_content] at h; exact Or.inl ⟨_, h.symm⟩
  case list => simp [check_content] at h; exact Or.inl ⟨_, h.symm⟩
  case path => simp [check_content] at h; exact Or.inl ⟨_, h.symm⟩
  case fmuCtx => simp [check_content] at h; exact Or.inl ⟨_, h.symm⟩
  case str =>
      by_cases hreq : AllowedContent.requires_additional_input s = true
      · simp [check_content, hreq] at h
        exact Or.inl ⟨_, h.symm⟩
      · by_cases hu : s = "unset"
        · subst hu; simp [check_content, hreq, PyValue.truthy] at h
        · by_cases hmem : s ∈ AllowedContent.model_fields
          · simp [check_content, hreq, hu, hmem, PyValue.truthy] at h
          · simp [check_content, hreq, hu, hmem, PyValue.truthy] at h
            exact Or.inl ⟨_, h.symm⟩
  case dict =>
      rcases entries with _ | ⟨⟨k, v⟩, rest⟩
      · simp [check_content] at h
        exact Or.inr (Or.inr h.symm)
      · rcases v with s2 | n2 | b2 | e2 | l2 | p2 | c2 | _
        case dict =>
            by_cases hu : k = "unset"
            · subst hu
              by_cases he2 : e2.isEmpty
              · simp [check_content, PyValue.truthy, he2] at h
              · by_cases hsv : contentSchemaValidate "unset" e2 = true
                · simp [check_content, PyValue.truthy, he2, content_validate, hsv] at h
                · simp [check_content, PyValue.truthy, he2, content_validate, hsv] at h
                  exact Or.inl ⟨_, h.symm⟩
            · by_cases hmem : k ∈ AllowedContent.model_fields
              · by_cases he2 : e2.isEmpty
                · simp [check_content, hu, hmem, PyValue.truthy, he2] at h
                · by_cases hsv : contentSchemaValidate k e2 = true
                  · simp [check_content, hu, hmem, PyValue.truthy, he2,
                      content_validate, hsv] at h
                  · simp [check_content, hu, hmem, PyValue.truthy, he2,
                      content_validate, hsv] at h
                    exact Or.inl ⟨_, h.symm⟩
              · simp [check_content, hu, hmem] at h
                exact Or.inl ⟨_, h.symm⟩
        all_goals simp [check_content] at h
        all_goals exact Or.inr (Or.inl h.symm)

/-- Helper: the content checker never raises the config-override
ValueError. -/
theorem check_content_not_config_error (p : PyValue) :
    check_content p ≠ .error (.valueError configUpdateErrMsg) := by
  intro h
  rcases check_content_error_cases p _ h with ⟨m, hm⟩ | hm | hm
  · cases hm
  · injection hm with h2
    exact absurd h2 (by decide)
  · cases hm

/-- Helper: FmuContext.get only ever raises ValidationErrors. -/
theorem fmuContext_get_error_validation (v : PyValue) (e : PyErr)
    (h : FmuContext.get v = .error e) : ∃ m, e = .validationError m := by
  rcases v with s | n | b | en | el | p | c | _
  case str =>
      simp only [FmuContext.get] at h
      split at h
      · cases h
      · split at h
        · cases h
        · split at h
          · cases h
          · split at h
            · cases h
            · injection h with h2
              exact ⟨_, h2.symm⟩
  case fmuCtx =>
      simp only [FmuContext.get] at h
      exact Except.noConfusion h
  all_goals simp only [FmuContext.get] at h
  all_goals injection h with h2
  all_goals exact ⟨_, h2.symm⟩

/-- Helper: the fmu_context re-validation only ever raises ValidationErrors. -/
theorem validate_fmucontext_key_error_validation (s : Settings) (e : PyErr)
    (h : validate_fmucontext_key s = .error e) : ∃ m, e = .validationError m := by
  unfold validate_fmucontext_key at h
  split at h
  case h_1 v str heq =>
      cases hg : FmuContext.get (.str str) with
      | error e2 =>
          rw [hg] at h
          injection h with h2
          exact h2 ▸ fmuContext_get_error_validation _ _ hg
      | ok c => rw [hg] at h; cases h
  case h_2 => cases h

/-- C6: a call-time settings update containing the config key fails with the
dedicated ValueError, and an update without a config key can never produce
that error (all other failure paths raise different errors). -/
theorem config_update_rejected (news : List (String × PyValue)) (s : Settings) :
    ((news.map (·.1)).contains "config" = true →
      update_check_settings news s = .error (.valueError configUpdateErrMsg)) ∧
    ((news.map (·.1)).contains "config" = false →
      update_check_settings news s ≠ .error (.valueError configUpdateErrMsg)) := by
  constructor
  · intro h
    unfold update_check_settings
    rw [h]
    rfl
  · intro h
    unfold update_check_settings
    rw [h, if_neg (show ¬ ((false : Bool) = true) by simp)]
    cases hl : settingsLoop (exportDataLegals.filter (fun kv => kv.1 ≠ "config")) news s with
    | error e =>
        show (Except.error e : Except PyErr Settings) ≠ .error (.valueError configUpdateErrMsg)
        intro hcontra
        injection hcontra with h2
        obtain ⟨m, hm⟩ := settingsLoop_error_validation _ _ _ _ hl
        rw [hm] at h2
        exact PyErr.noConfusion h2
    | ok s2 =>
        show (match validate_content_key s2 with
              | Except.error e => Except.error e
              | Except.ok s3 => validate_fmucontext_key s3) ≠
            .error (.valueError configUpdateErrMsg)
        cases hc : validate_content_key s2 with
        | error e =>
            show (Except.error e : Except PyErr Settings) ≠ .error (.valueError configUpdateErrMsg)
            intro hcontra
            injection hcontra with h2
            unfold validate_content_key at hc
            cases hcc : check_content (getAttrD s2 "content" .pyNone) with
            | error e2 =>
                rw [hcc] at hc
                injection hc with h3
                exact check_content_not_config_error _ (by rw [hcc, h3, h2])
            | ok pr => rw [hcc] at hc; cases hc
        | ok s3 =>
            show validate_fmucontext_key s3 ≠ .error (.valueError configUpdateErrMsg)
            intro hcontra
            obtain ⟨m, hm⟩ := validate_fmucontext_key_error_validation s3 _ hcontra
            exact PyErr.noConfusion hm

/-- Witness for C6: the config key is rejected at call time; a config-free
update is not rejected with that error. -/
theorem config_update_rejected_witness :
    update_check_settings [("config", .dict [])] [] =
      .error (.valueError configUpdateErrMsg) ∧
    update_check_settings [("name", .str "x")] exportDataDefaults ≠
      .error (.valueError configUpdateErrMsg) :=
  ⟨(config_update_rejected [("config", .dict [])] []).1 rfl,
   (config_update_rejected [("name", .str "x")] exportDataDefaults).2 rfl⟩

/-- C4: when no explicit aggregation_id is supplied, the derived aggregation
id depends only on the multiset of source realization uuids: permuting the
input list leaves the id unchanged, and recomputing on the same input gives
the same id. -/
theorem aggregation_id_permutation_invariant (l l2 : List String) (h : l.Perm l2) :
    resolve_aggregation_id none l = resolve_aggregation_id none l2 ∧
    resolve_aggregation_id none l = resolve_aggregation_id none l := by
  refine ⟨?_, rfl⟩
  unfold resolve_aggregation_id generate_aggr_uuid pySorted
  have hs : l.insertionSort (· ≤ ·) = l2.insertionSort (· ≤ ·) :=
    List.eq_of_perm_of_sorted
      ((List.perm_insertionSort _ l).trans (h.trans (List.perm_insertionSort _ l2).symm))
      (List.sorted_insertionSort _ l) (List.sorted_insertionSort _ l2)
  rw [hs]

/-- Witness for C4 at a concrete two-element permutation. -/
theorem aggregation_id_permutation_invariant_witness :
    resolve_aggregation_id none ["bbb-222", "aaa-111"] =
      resolve_aggregation_id none ["aaa-111", "bbb-222"] ∧
    resolve_aggregation_id none ["bbb-222", "aaa-111"] =
      resolve_aggregation_id none ["bbb-222", "aaa-111"] :=
  aggregation_id_permutation_invariant ["bbb-222", "aaa-111"] ["aaa-111", "bbb-222"]
    (List.Perm.swap "aaa-111" "bbb-222" [])

/-- C9 counterexample: generate_metadata never writes the case metadata file,
so calling it twice against a fresh case root returns a non-empty document
both times (no already-exists warning on the second call, and no file on
disk afterwards), refuting the claimed idempotence of generate_metadata
alone. -/
theorem case_generate_metadata_twice_nonempty :
    (((InitializeCase.mk (.dict []) (.dict []) (.dict [])
        "/scratch/f/case" "mycase" "user1" none).generate_metadata "uuid-1"
        ⟨[], []⟩).1).isSome = true ∧
    (((InitializeCase.mk (.dict []) (.dict []) (.dict [])
        "/scratch/f/case" "mycase" "user1" none).generate_metadata "uuid-2"
        (((InitializeCase.mk (.dict []) (.dict []) (.dict [])
          "/scratch/f/case" "mycase" "user1" none).generate_metadata "uuid-1"
          ⟨[], []⟩).2.2)).1).isSome = true ∧
    (((InitializeCase.mk (.dict []) (.dict []) (.dict [])
        "/scratch/f/case" "mycase" "user1" none).generate_metadata "uuid-2"
        (((InitializeCase.mk (.dict []) (.dict []) (.dict [])
          "/scratch/f/case" "mycase" "user1" none).generate_metadata "uuid-1"
          ⟨[], []⟩).2.2)).2.1) = false ∧
    (((InitializeCase.mk (.dict []) (.dict []) (.dict [])
        "/scratch/f/case" "mycase" "user1" none).generate_metadata "uuid-1"
        ⟨[], []⟩).2.2).caseFiles = [] :=
  ⟨rfl, rfl, rfl, rfl⟩

/-- Helper: the directory-creation step touches only dirs, and reports
whether the case metadata file is still absent. -/
theorem establish_metadata_files_spec (ic : InitializeCase) (fs : FS) :
    (ic.establish_metadata_files fs).2.caseFiles = fs.caseFiles ∧
    (ic.establish_metadata_files fs).1 =
      !(fs.caseFiles.map (·.1)).contains ic.metafile := by
  by_cases hd : (ic.rootfolder ++ "/share/metadata") ∈ fs.dirs <;>
    simp [InitializeCase.establish_metadata_files, hd]

/-- Helper: what generate_metadata returns and how it leaves the case files,
as a function of whether the metafile already exists. -/
theorem generate_metadata_spec (ic : InitializeCase) (u : String) (fs : FS) :
    (ic.generate_metadata u fs).1 =
      (if (fs.caseFiles.map (·.1)).contains ic.metafile then none
       else some { masterdata := ic.configMasterdata
                   access := ic.configAccess
                   model := ic.configModel
                   casename := ic.casename
                   caseuuid := u
                   caseuser := ic.caseuser
                   description := ic.description }) ∧
    (ic.generate_metadata u fs).2.1 = (fs.caseFiles.map (·.1)).contains ic.metafile ∧
    (ic.generate_metadata u fs).2.2.caseFiles = fs.caseFiles := by
  by_cases hd : (ic.rootfolder ++ "/share/metadata") ∈ fs.dirs <;>
  by_cases hc : ic.metafile ∈ fs.caseFiles.map (·.1) <;>
    simp [InitializeCase.generate_metadata, InitializeCase.establish_metadata_files,
      hd, hc]

/-- Helper: what export returns and how it leaves the case files. -/
theorem export_spec (ic : InitializeCase) (u : String) (fs : FS) :
    (ic.export u fs).2.1 = (fs.caseFiles.map (·.1)).contains ic.metafile ∧
    (ic.export u fs).2.2.caseFiles =
      (if (fs.caseFiles.map (·.1)).contains ic.metafile then fs.caseFiles
       else (ic.metafile,
              { masterdata := ic.configMasterdata
                access := ic.configAccess
                model := ic.configModel
                casename := ic.casename
                caseuuid := u
                caseuser := ic.caseuser
                description := ic.description }) :: fs.caseFiles) := by
  by_cases hd : (ic.rootfolder ++ "/share/metadata") ∈ fs.dirs <;>
  by_cases hc : ic.metafile ∈ fs.caseFiles.map (·.1) <;>
    simp [InitializeCase.export, InitializeCase.generate_metadata,
      InitializeCase.establish_metadata_files, hd, hc]

/-- C9 (amended): the claimed idempotence holds for export, which persists
what generate_metadata assembles: against a case root with no case metadata
file, the first export writes the document carrying the fresh uuid and emits
no warning; on a second run generate_metadata returns the empty result with
the already-exists warning, and a second export leaves the on-disk document
(including its uuid) unchanged; generate_metadata itself never writes the
file. -/
theorem case_export_idempotent (ic : InitializeCase) (u1 u2 : String) (fs : FS)
    (h : (fs.caseFiles.map (·.1)).contains ic.metafile = false) :
    (ic.export u1 fs).2.1 = false ∧
    (ic.export u1 fs).2.2.caseFiles.lookup ic.metafile =
      some { masterdata := ic.configMasterdata
             access := ic.configAccess
             model := ic.configModel
             casename := ic.casename
             caseuuid := u1
             caseuser := ic.caseuser
             description := ic.description } ∧
    (ic.generate_metadata u2 (ic.export u1 fs).2.2).1 = none ∧
    (ic.generate_metadata u2 (ic.export u1 fs).2.2).2.1 = true ∧
    (ic.generate_metadata u2 (ic.export u1 fs).2.2).2.2.caseFiles =
      (ic.export u1 fs).2.2.caseFiles ∧
    (ic.export u2 (ic.export u1 fs).2.2).2.2.caseFiles.lookup ic.metafile =
      some { masterdata := ic.configMasterdata
             access := ic.configAccess
             model := ic.configModel
             casename := ic.casename
             caseuuid := u1
             caseuser := ic.caseuser
             description := ic.description } := by
  obtain ⟨he1, he2⟩ := export_spec ic u1 fs
  rw [h] at he1 he2
  simp only [if_neg (by simp : ¬ (false = true))] at he2
  have hcontains2 : ((ic.export u1 fs).2.2.caseFiles.map (·.1)).contains ic.metafile = true := by
    rw [he2]; simp
  obtain ⟨hg1, hg2, hg3⟩ := generate_metadata_spec ic u2 (ic.export u1 fs).2.2
  rw [hcontains2] at hg1 hg2
  simp only [if_pos rfl] at hg1
  obtain ⟨hx1, hx2⟩ := export_spec ic u2 (ic.export u1 fs).2.2
  rw [hcontains2] at hx2
  simp only [if_pos rfl] at hx2
  refine ⟨he1, ?_, hg1, hg2, hg3, ?_⟩
  · rw [he2]; simp [List.lookup]
  · rw [hx2, he2]; simp [List.lookup]

/-- Witness for C9 (amended) at a concrete initializer and empty
filesystem. -/
theorem case_export_idempotent_witness :
    ((InitializeCase.mk (.dict []) (.dict []) (.dict [])
      "/scratch/f/case" "mycase" "user1" none).export "uuid-1" ⟨[], []⟩).2.1 = false ∧
    ((InitializeCase.mk (.dict []) (.dict []) (.dict [])
      "/scratch/f/case" "mycase" "user1" none).export "uuid-1"
      ⟨[], []⟩).2.2.caseFiles.lookup
        (InitializeCase.mk (.dict []) (.dict []) (.dict [])
          "/scratch/f/case" "mycase" "user1" none).metafile =
      some { masterdata := .dict []
             access := .dict []
             model := .dict []
             casename := "mycase"
             caseuuid := "uuid-1"
             caseuser := "user1"
             description := none } ∧
    ((InitializeCase.mk (.dict []) (.dict []) (.dict [])
      "/scratch/f/case" "mycase" "user1" none).generate_metadata "uuid-2"
      ((InitializeCase.mk (.dict []) (.dict []) (.dict [])
        "/scratch/f/case" "mycase" "user1" none).export "uuid-1" ⟨[], []⟩).2.2).1 = none ∧
    ((InitializeCase.mk (.dict []) (.dict []) (.dict [])
      "/scratch/f/case" "mycase" "user1" none).generate_metadata "uuid-2"
      ((InitializeCase.mk (.dict []) (.dict []) (.dict [])
        "/scratch/f/case" "mycase" "user1" none).export "uuid-1" ⟨[], []⟩).2.2).2.1 = true ∧
    ((InitializeCase.mk (.dict []) (.dict []) (.dict [])
      "/scratch/f/case" "mycase" "user1" none).generate_metadata "uuid-2"
      ((InitializeCase.mk (.dict []) (.dict []) (.dict [])
        "/scratch/f/case" "mycase" "user1" none).export "uuid-1" ⟨[], []⟩).2.2).2.2.caseFiles =
      ((InitializeCase.mk (.dict []) (.dict []) (.dict [])
        "/scratch/f/case" "mycase" "user1" none).export "uuid-1" ⟨[], []⟩).2.2.caseFiles ∧
    ((InitializeCase.mk (.dict []) (.dict []) (.dict [])
      "/scratch/f/case" "mycase" "user1" none).export "uuid-2"
      ((InitializeCase.mk (.dict []) (.dict []) (.dict [])
        "/scratch/f/case" "mycase" "user1" none).export "uuid-1"
        ⟨[], []⟩).2.2).2.2.caseFiles.lookup
          (InitializeCase.mk (.dict []) (.dict []) (.dict [])
            "/scratch/f/case" "mycase" "user1" none).metafile =
      some { masterdata := .dict []
             access := .dict []
             model := .dict []
             casename := "mycase"
             caseuuid := "uuid-1"
             caseuser := "user1"
             description := none } :=
  case_export_idempotent
    (InitializeCase.mk (.dict []) (.dict []) (.dict [])
      "/scratch/f/case" "mycase" "user1" none) "uuid-1" "uuid-2" ⟨[], []⟩ rfl

/-- Helper: setting one attribute leaves lookups of other keys unchanged. -/
theorem getAttr_setAttr_ne (s : Settings) (k k2 : String) (v : PyValue) (h : k ≠ k2) :
    getAttr (setAttr s k2 v) k = getAttr s k := by
  simp [getAttr, setAttr, List.lookup, beq_eq_false_iff_ne.mpr h]

/-- Helper: the settings loop leaves keys it does not mention unchanged. -/
theorem settingsLoop_preserves (legals : List (String × TypeSpec))
    (news : List (String × PyValue)) (s s2 : Settings) (k : String)
    (hk : k ∉ news.map (·.1))
    (h : settingsLoop legals news s = .ok s2) :
    getAttr s2 k = getAttr s k := by
  induction news generalizing s with
  | nil =>
      unfold settingsLoop at h
      injection h with h2
      rw [h2]
  | cons kv rest ih =>
      obtain ⟨k2, v⟩ := kv
      simp only [List.map_cons, List.mem_cons, not_or] at hk
      obtain ⟨hk1, hk2⟩ := hk
      unfold settingsLoop at h
      obtain ⟨u, _, h2⟩ := except_bind_ok _ _ _ h
      rw [ih (setAttr s k2 v) hk2 h2, getAttr_setAttr_ne _ _ _ _ hk1]

/-- Helper: the content re-validation only writes the derived underscore
attributes. -/
theorem validate_content_key_preserves (s s2 : Settings) (k : String)
    (h1 : k ≠ "_usecontent") (h2 : k ≠ "_content_specific")
    (h : validate_content_key s = .ok s2) : getAttr s2 k = getAttr s k := by
  unfold validate_content_key at h
  cases hcc : check_content (getAttrD s "content" .pyNone) with
  | error e => rw [hcc] at h; cases h
  | ok pr =>
      obtain ⟨u, c⟩ := pr
      rw [hcc] at h
      injection h with h3
      rw [← h3, getAttr_setAttr_ne _ _ _ _ h2, getAttr_setAttr_ne _ _ _ _ h1]

/-- Helper: the global-config merge only writes the config attribute. -/
theorem update_globalconfig_preserves (s s2 : Settings) (k : String)
    (hk : k ≠ "config")
    (h : update_globalconfig_from_settings s = .ok s2) : getAttr s2 k = getAttr s k := by
  unfold update_globalconfig_from_settings at h
  obtain ⟨cfg, _, h2⟩ := except_bind_ok _ _ _ h
  injection h2 with h3
  rw [← h3, getAttr_setAttr_ne _ _ _ _ hk]

/-- Helper: the fmu_context re-validation only writes the fmu_context
attribute. -/
theorem validate_fmucontext_key_preserves (s s2 : Settings) (k : String)
    (hk : k ≠ "fmu_context")
    (h : validate_fmucontext_key s = .ok s2) : getAttr s2 k = getAttr s k := by
  unfold validate_fmucontext_key at h
  split at h
  case h_1 v str heq =>
      cases hg : FmuContext.get (.str str) with
      | error e => rw [hg] at h; cases h
      | ok c =>
          rw [hg] at h
          injection h with h2
          rw [← h2, getAttr_setAttr_ne _ _ _ _ hk]
  case h_2 =>
      injection h with h2
      rw [h2]

/-- Helper: establishing pwd and rootpath only writes the two underscore
state attributes. -/
theorem establish_pwd_rootpath_preserves (pwd : String) (rms : Bool)
    (s : Settings) (k : String) (h1 : k ≠ "_pwd") (h2 : k ≠ "_rootpath") :
    getAttr (establish_pwd_rootpath pwd rms s) k = getAttr s k := by
  unfold establish_pwd_rootpath
  rw [getAttr_setAttr_ne _ _ _ _ h2, getAttr_setAttr_ne _ _ _ _ h1]

/-- C10 counterexample: a settings-override file named by the environment
variable is applied after the vertical_domain reset, so a construction under
FMU_DATAIO_CONFIG providing vertical_domain ends post-init with that value
rather than with the default, refuting the claim for such constructions. -/
theorem vertical_domain_env_override :
    (post_init (fun _ => false) id
      (some [("vertical_domain", .dict [("time", .str "sb")])]) none
      "/project/x/rms/model" false exportDataDefaults).map
        (fun s => getAttrD s "vertical_domain" .pyNone) =
      .ok (.dict [("time", .str "sb")]) ∧
    PyValue.dict [("time", .str "sb")] ≠ PyValue.dict [("depth", .str "msl")] := by
  constructor
  · rfl
  · intro h
    injection h with h2
    injection h2 with h3
    injection h3 with h4
    exact absurd h4 (by decide)

/-- C10 (amended): after post-init the vertical_domain attribute equals the
default mapping depth-to-msl whatever was passed to the constructor - the
constructor value is unconditionally overwritten - unless an
environment-supplied settings override provides a vertical_domain value of
its own, which is applied after the reset. -/
theorem vertical_domain_reset (isV : PyValue → Bool) (rt : PyValue → PyValue)
    (ext : Option (List (String × PyValue))) (envG : Option PyValue)
    (pwd : String) (rms : Bool) (s0 s : Settings)
    (hext : ∀ l, ext = some l → "vertical_domain" ∉ l.map (·.1))
    (hok : post_init isV rt ext envG pwd rms s0 = .ok s) :
    getAttr s "vertical_domain" = some (.dict [("depth", .str "msl")]) := by
  unfold post_init at hok
  obtain ⟨ctx, _, hok⟩ := except_bind_ok _ _ _ hok
  obtain ⟨s1, hs1, hok⟩ := except_bind_ok _ _ _ hok
  obtain ⟨s2, hs2, hok⟩ := except_bind_ok _ _ _ hok
  obtain ⟨s3, hs3, hok⟩ := except_bind_ok _ _ _ hok
  injection hok with hok2
  have base : getAttr (setAttr (setAttr s0 "fmu_context" (.fmuCtx ctx))
      "vertical_domain" (.dict [("depth", .str "msl")])) "vertical_domain" =
      some (.dict [("depth", .str "msl")]) := by
    simp [getAttr, setAttr, List.lookup]
  have hv1 : getAttr s1 "vertical_domain" = some (.dict [("depth", .str "msl")]) := by
    cases ext with
    | none =>
        injection hs1 with h2
        rw [← h2, base]
    | some l =>
        exact (settingsLoop_preserves _ _ _ _ _ (hext l rfl) hs1).trans base
  have hv2 : getAttr s2 "vertical_domain" = some (.dict [("depth", .str "msl")]) := by
    have := validate_content_key_preserves _ _ "vertical_domain" (by decide) (by decide) hs2
    rw [this]
    cases envG with
    | none => exact hv1
    | some cfg => rw [getAttr_setAttr_ne _ _ _ _ (by decide)]; exact hv1
  have hv3 : getAttr s3 "vertical_domain" = some (.dict [("depth", .str "msl")]) := by
    rw [update_globalconfig_preserves _ _ "vertical_domain" (by decide) hs3, hv2]
  rw [← hok2]
  rw [establish_pwd_rootpath_preserves _ _ _ _ (by decide) (by decide)]
  cases hval : isV (getAttrD s3 "config" (.dict [])) <;>
    simp only [hval, if_pos, if_neg, Bool.false_eq_true, if_false, if_true]
  · rw [getAttr_setAttr_ne _ _ _ _ (by decide)]
    exact hv3
  · rw [getAttr_setAttr_ne _ _ _ _ (by decide),
      getAttr_setAttr_ne _ _ _ _ (by decide)]
    exact hv3

/-- Witness for C10 (amended): with no environment override, post-init on the
dataclass defaults leaves vertical_domain at the depth-to-msl default. -/
theorem vertical_domain_reset_witness :
    (post_init (fun _ => false) id none none "/project/x/rms/model" false
      exportDataDefaults).map (fun s => getAttr s "vertical_domain") =
      .ok (some (.dict [("depth", .str "msl")])) := by
  cases hok : post_init (fun _ => false) id none none "/project/x/rms/model" false
      exportDataDefaults with
  | error e =>
      have hk : (post_init (fun _ => false) id none none "/project/x/rms/model" false
          exportDataDefaults).toOption.isSome = true := rfl
      rw [hok] at hk
      simp [Except.toOption] at hk
  | ok s =>
      have hv := vertical_domain_reset (fun _ => false) id none none
        "/project/x/rms/model" false exportDataDefaults s (fun l hl => by cases hl) hok
      simp [Except.map, hv]

/-- Helper: a pattern that occurs nowhere in the list leaves the fuelled
replace unchanged, for any fuel. -/
theorem pyReplaceFuel_no_occurrence (pat repl : List Char) (fuel : Nat) (l : List Char)
    (h : containsSub pat l = false) : pyReplaceFuel pat repl fuel l = l := by
  induction fuel generalizing l with
  | zero => rfl
  | succ fuel ih =>
      cases l with
      | nil => rfl
      | cons c rest =>
          unfold containsSub at h
          simp only [Bool.or_eq_false_iff] at h
          obtain ⟨h1, h2⟩ := h
          unfold pyReplaceFuel
          rw [h1]
          simp only [Bool.and_false, Bool.false_eq_true, if_false]
          rw [ih rest h2]

/-- Helper: replacing a nonempty leading pattern with the empty string strips
exactly that prefix when the pattern does not occur in the remainder. -/
theorem pyReplace_strip (pat rest : String) (hpat : pat.data ≠ [])
    (hocc : containsSub pat.data rest.data = false) :
    pyReplace (pat ++ rest) pat "" = rest := by
  unfold pyReplace
  have hdata : (pat ++ rest).data = pat.data ++ rest.data := String.data_append pat rest
  rw [hdata]
  cases hp : pat.data with
  | nil => exact absurd hp hpat
  | cons c pt =>
      have hpre : pat.data.isPrefixOf (pat.data ++ rest.data) = true :=
        List.isPrefixOf_iff_prefix.mpr (List.prefix_append _ _)
      rw [hp] at hpre
      show String.mk (pyReplaceFuel (c :: pt) [] ((pt ++ rest.data).length + 1)
        (c :: (pt ++ rest.data))) = rest
      rw [pyReplaceFuel]
      rw [if_pos (by
        simp only [List.isEmpty_cons, Bool.not_false, Bool.true_and]
        exact hpre)]
      have hdrop : (c :: (pt ++ rest.data)).drop (c :: pt).length = rest.data := by
        have h2 := List.drop_left (c :: pt) rest.data
        simp only [List.cons_append] at h2
        exact h2
      simp only [List.length_cons] at hdrop
      show String.mk ([] ++ pyReplaceFuel (c :: pt) [] (pt ++ rest.data).length
        (List.drop (pt.length + 1) (c :: (pt ++ rest.data)))) = rest
      rw [show List.drop (pt.length + 1) (c :: (pt ++ rest.data)) = rest.data from hdrop]
      rw [List.nil_append,
        pyReplaceFuel_no_occurrence (c :: pt) [] ((pt ++ rest.data).length) rest.data
          (hp ▸ hocc)]

/-- Helper: splitting never yields the empty list of segments. -/
theorem splitChar_ne_nil (sep : Char) (l : List Char) : splitChar sep l ≠ [] := by
  cases l with
  | nil => simp [splitChar]
  | cons c rest =>
      unfold splitChar
      cases splitChar sep rest with
      | nil => simp
      | cons h t => by_cases hc : c = sep <;> simp [hc]

/-- Helper: a list without the separator splits into itself. -/
theorem splitChar_no_sep (sep : Char) (l : List Char) (h : sep ∉ l) :
    splitChar sep l = [l] := by
  induction l with
  | nil => rfl
  | cons c rest ih =>
      simp only [List.mem_cons, not_or] at h
      obtain ⟨h1, h2⟩ := h
      unfold splitChar
      rw [ih h2]
      simp [Ne.symm h1]

/-- Helper: splitting a list that starts with a separator-free segment
followed by the separator peels off that segment. -/
theorem splitChar_append_sep (sep : Char) (p tail : List Char) (h : sep ∉ p) :
    splitChar sep (p ++ sep :: tail) = p :: splitChar sep tail := by
  induction p with
  | nil =>
      simp only [List.nil_append]
      rw [splitChar]
      cases hs : splitChar sep tail with
      | nil => exact absurd hs (splitChar_ne_nil sep tail)
      | cons h2 t2 => simp
  | cons c p2 ih =>
      simp only [List.mem_cons, not_or] at h
      obtain ⟨h1, h2⟩ := h
      simp only [List.cons_append]
      rw [splitChar, ih h2]
      simp [Ne.symm h1]

/-- Helper: the data of a join with a further part. -/
theorem joinParts_cons_data (p q : String) (rest2 : List String) :
    (joinParts (p :: q :: rest2)).data = p.data ++ '/' :: (joinParts (q :: rest2)).data := by
  show (p ++ "/" ++ joinParts (q :: rest2)).data = _
  rw [String.data_append, String.data_append, List.append_assoc]
  rfl

/-- Helper: rebuilding a string from separator-free parts and splitting it
again returns the original parts. -/
theorem splitChar_joinParts (parts : List String) (hne : parts ≠ [])
    (h : ∀ p ∈ parts, '/' ∉ p.data) :
    splitChar '/' (joinParts parts).data = parts.map (·.data) := by
  induction parts with
  | nil => exact absurd rfl hne
  | cons p rest ih =>
      cases rest with
      | nil =>
          simp only [joinParts, List.map]
          exact splitChar_no_sep '/' p.data (h p (by simp))
      | cons q rest2 =>
          rw [joinParts_cons_data, splitChar_append_sep '/' p.data _ (h p (by simp))]
          rw [ih (by simp) (fun x hx => h x (List.mem_cons_of_mem p hx))]
          rfl

/-- Helper: mapping mk over data is the identity. -/
theorem map_mk_data (l : List String) : (l.map (·.data)).map String.mk = l := by
  induction l with
  | nil => rfl
  | cons p rest ih => simp only [List.map_cons, ih]

/-- Helper: parsing the join of well-formed relative parts recovers exactly
those parts, with no leading separator. -/
theorem parse_joinParts (parts : List String) (hne : parts ≠ [])
    (h : ∀ p ∈ parts, p ≠ "" ∧ p ≠ "." ∧ '/' ∉ p.data) :
    PyPath.parse (joinParts parts) = ⟨false, parts⟩ := by
  have habs : startsSlash (joinParts parts) = false := by
    cases parts with
    | nil => exact absurd rfl hne
    | cons p rest =>
        obtain ⟨hp1, hp2, hp3⟩ := h p (by simp)
        have hhead : ∀ c l, (joinParts (p :: rest)).data = c :: l → c ≠ '/' := by
          intro c l hc
          cases rest with
          | nil =>
              simp only [joinParts] at hc
              intro he
              apply hp3
              rw [hc, he]
              exact List.mem_cons_self _ _
          | cons q rest2 =>
              rw [joinParts_cons_data] at hc
              cases hpd : p.data with
              | nil => exact absurd (String.ext hpd) hp1
              | cons c2 l2 =>
                  rw [hpd] at hc
                  simp only [List.cons_append, List.cons.injEq] at hc
                  intro he
                  apply hp3
                  rw [hpd, hc.1, he]
                  exact List.mem_cons_self _ _
        unfold startsSlash
        cases hd : (joinParts (p :: rest)).data with
        | nil => rfl
        | cons c l => simp [hhead c l hd]
  unfold PyPath.parse
  rw [habs]
  have hparts : pathParts (joinParts parts) = parts := by
    unfold pathParts
    rw [splitChar_joinParts parts hne (fun p hp => (h p hp).2.2), map_mk_data]
    rw [List.filter_eq_self.mpr]
    intro a ha
    obtain ⟨h1, h2, _⟩ := h a ha
    simp [h1, h2]
  rw [hparts]

/-- Helper: a character that does not occur is not found from the right. -/
theorem rfindIdx_none (c : Char) (l : List Char) (h : c ∉ l) : rfindIdx c l = none := by
  induction l with
  | nil => rfl
  | cons x rest ih =>
      simp only [List.mem_cons, not_or] at h
      obtain ⟨h1, h2⟩ := h
      unfold rfindIdx
      rw [ih h2]
      simp [Ne.symm h1]

/-- Helper: the last occurrence of a character sitting between two
occurrence-free segments is at the first segment's length. -/
theorem rfindIdx_append (c : Char) (l1 l2 : List Char) (h1 : c ∉ l1) (h2 : c ∉ l2) :
    rfindIdx c (l1 ++ c :: l2) = some l1.length := by
  induction l1 with
  | nil =>
      simp only [List.nil_append]
      unfold rfindIdx
      rw [rfindIdx_none c l2 h2]
      simp
  | cons x rest ih =>
      simp only [List.mem_cons, not_or] at h1
      obtain ⟨hx, hrest⟩ := h1
      simp only [List.cons_append]
      unfold rfindIdx
      rw [ih hrest]
      simp

/-- Helper: the pathlib suffix and stem of a name of the shape
stem.extension, with a dot-free nonempty stem and extension. -/
theorem pySuffix_pyStem_of_shape (st ext : String)
    (hst : st ≠ "") (hext : ext ≠ "")
    (hstd : '.' ∉ st.data) (hextd : '.' ∉ ext.data) :
    pySuffix (st ++ "." ++ ext) = "." ++ ext ∧ pyStem (st ++ "." ++ ext) = st := by
  have hdata : (st ++ "." ++ ext).data = st.data ++ '.' :: ext.data := by
    rw [String.data_append, String.data_append, List.append_assoc]
    rfl
  have hfind : rfindIdx '.' (st ++ "." ++ ext).data = some st.data.length := by
    rw [hdata]
    exact rfindIdx_append '.' st.data ext.data hstd hextd
  have hstpos : 0 < st.data.length := by
    cases hsd : st.data with
    | nil => exact absurd (String.ext hsd) hst
    | cons a b => simp
  have hextpos : 0 < ext.data.length := by
    cases hed : ext.data with
    | nil => exact absurd (String.ext hed) hext
    | cons a b => simp
  have hlen : (st ++ "." ++ ext).data.length = st.data.length + 1 + ext.data.length := by
    rw [hdata]
    simp [Nat.add_comm, Nat.add_assoc, Nat.add_left_comm]
  have hcond : 0 < st.data.length ∧
      st.data.length < (st ++ "." ++ ext).data.length - 1 := by
    constructor
    · exact hstpos
    · rw [hlen]; omega
  constructor
  · unfold pySuffix
    rw [hfind]
    show (if 0 < st.data.length ∧ st.data.length < (st ++ "." ++ ext).data.length - 1 then
        String.mk ((st ++ "." ++ ext).data.drop st.data.length) else "") = "." ++ ext
    rw [if_pos hcond, hdata, List.drop_left]
    rfl
  · unfold pyStem
    rw [hfind]
    show (if 0 < st.data.length ∧ st.data.length < (st ++ "." ++ ext).data.length - 1 then
        String.mk ((st ++ "." ++ ext).data.take st.data.length)
      else st ++ "." ++ ext) = st
    rw [if_pos hcond, hdata, List.take_left]

/-- Helper: a dot-free name has the empty pathlib suffix. -/
theorem pySuffix_no_dot (name : String) (h : '.' ∉ name.data) : pySuffix name = "" := by
  unfold pySuffix
  rw [rfindIdx_none '.' name.data h]

/-- Helper: the last element of a snoc list with a default. -/
theorem getLastD_concat (l : List String) (a d : String) : (l ++ [a]).getLastD d = a := by
  induction l with
  | nil => rfl
  | cons x rest ih =>
      cases rest with
      | nil => rfl
      | cons y rest2 => simpa using ih

/-- Helper: joining a well-formed single name onto a relative directory path
and replacing the (empty) suffix of that dot-free name appends the
dot-separated extension. -/
theorem joinStr_withSuffix_eval (ds : List String) (u ext : String)
    (hu1 : u ≠ "") (hu2 : u ≠ ".") (hu3 : '/' ∉ u.data) (hu4 : '.' ∉ u.data)
    (hext : ext ≠ "") (hextd : '/' ∉ ext.data) :
    (PyPath.joinStr ⟨false, ds⟩ u).withSuffix ("." ++ ext) =
      .ok ⟨false, ds ++ [u ++ ("." ++ ext)]⟩ := by
  have hparse : PyPath.parse u = ⟨false, [u]⟩ :=
    parse_joinParts [u] (by simp) (by simp [hu1, hu2, hu3])
  have hjoin : PyPath.joinStr ⟨false, ds⟩ u = ⟨false, ds ++ [u]⟩ := by
    unfold PyPath.joinStr
    rw [hparse]
    rfl
  have hsfxdata : ("." ++ ext).data = '.' :: ext.data := rfl
  have hg1 : ("." ++ ext).data.contains '/' = false := by
    rw [hsfxdata]
    simp [List.elem_eq_mem, hextd]
  have hne_dot : ("." ++ ext) ≠ "." := by
    intro he
    have : ('.' :: ext.data) = ['.'] := by
      have := congrArg String.data he
      simpa [hsfxdata] using this
    have hed : ext.data = [] := by simpa using this
    exact hext (String.ext hed)
  have hname : PyPath.name ⟨false, ds ++ [u]⟩ = u := getLastD_concat ds u ""
  rw [hjoin]
  unfold PyPath.withSuffix
  rw [if_neg (by rw [hg1]; exact Bool.false_ne_true)]
  rw [if_neg (by
    rw [show ("." ++ ext).data.head? = some '.' from by rw [hsfxdata]; rfl]
    simp [hne_dot])]
  rw [if_neg (by rw [hname]; exact fun he => hu1 he)]
  rw [hname]
  rw [pySuffix_no_dot u hu4]
  simp [List.dropLast_concat]

/-- C8 counterexample: when an explicit name is set on the aggregation, the
derived filename uses that name instead of the stem--operation stem, so the
claim's unconditional description of the output filename fails. -/
theorem aggr_filename_name_overrides_stem :
    construct_filename (fun _ => false)
      ⟨none, "custom", "mean", ""⟩
      ⟨"realization-33", "realization-33/iter-0/share/results/maps/x.gri", none⟩ =
      .ok ("iter-0/share/results/maps/custom.gri", none) ∧
    ("iter-0/share/results/maps/custom.gri" : String) ≠
      "iter-0/share/results/maps/x--mean.gri" :=
  ⟨rfl, by decide⟩

/-- C8 (amended): for a template whose relative path is the realization
folder segment followed by a well-formed relative file path, and with no
explicit name set on the aggregation, the derived output filename is the
template path with the realization-folder segment stripped and the file stem
replaced by stem--operation, with --tagname appended when a tagname is set
(an explicitly set name replaces the stem--operation stem, as the
counterexample shows); and an explicitly supplied casepath that does not
exist on disk makes the derivation fail with a ValueError. -/
theorem aggr_filename_derivation (pexists : String → Bool)
    (rn : String) (ds : List String) (st ext op tg : String)
    (hds : ∀ d ∈ ds, d ≠ "" ∧ d ≠ "." ∧ '/' ∉ d.data)
    (hst : st ≠ "" ∧ '/' ∉ st.data ∧ '.' ∉ st.data)
    (hext : ext ≠ "" ∧ '/' ∉ ext.data ∧ '.' ∉ ext.data)
    (hop : '/' ∉ op.data ∧ '.' ∉ op.data)
    (htg : '/' ∉ tg.data ∧ '.' ∉ tg.data)
    (hocc : containsSub (rn ++ "/").data
      (joinParts (ds ++ [st ++ "." ++ ext])).data = false) :
    construct_filename pexists ⟨none, "", op, tg⟩
      ⟨rn, rn ++ "/" ++ joinParts (ds ++ [st ++ "." ++ ext]), none⟩ =
      .ok (joinParts (ds ++
        [st ++ "--" ++ op ++ (if tg = "" then "" else "--" ++ tg) ++ "." ++ ext]), none) ∧
    (∀ cp, cp ≠ "" → pexists cp = false →
      construct_filename pexists ⟨some cp, "", op, tg⟩
        ⟨rn, rn ++ "/" ++ joinParts (ds ++ [st ++ "." ++ ext]), none⟩ =
        .error (.valueError (casepathMissingMsg cp))) := by
  have hstd_ne : st.data ≠ [] := fun he => hst.1 (String.ext he)
  have hfile_data : (st ++ "." ++ ext).data = st.data ++ '.' :: ext.data := by
    rw [String.data_append, String.data_append, List.append_assoc]
    rfl
  have hfile_ne : (st ++ "." ++ ext) ≠ "" := by
    intro he
    have := congrArg String.data he
    rw [hfile_data] at this
    cases hsd : st.data with
    | nil => exact hstd_ne hsd
    | cons a b => rw [hsd] at this; simp at this
  have hfile_nedot : (st ++ "." ++ ext) ≠ "." := by
    intro he
    have := congrArg String.data he
    rw [hfile_data] at this
    cases hsd : st.data with
    | nil => exact hstd_ne hsd
    | cons a b =>
        rw [hsd] at this
        simp only [List.cons_append, show ("." : String).data = ['.'] from rfl,
          List.cons.injEq] at this
        obtain ⟨ha, hb⟩ := this
        exact hst.2.2 (by rw [hsd, ha]; exact List.mem_cons_self _ _)
  have hfile_slash : '/' ∉ (st ++ "." ++ ext).data := by
    rw [hfile_data]
    simp only [List.mem_append, List.mem_cons, not_or]
    exact ⟨hst.2.1, by simp, hext.2.1⟩
  have hall : ∀ p ∈ ds ++ [st ++ "." ++ ext], p ≠ "" ∧ p ≠ "." ∧ '/' ∉ p.data := by
    intro p hp
    rcases List.mem_append.mp hp with hp | hp
    · exact hds p hp
    · rw [List.mem_singleton.mp hp]
      exact ⟨hfile_ne, hfile_nedot, hfile_slash⟩
  have hpat : (rn ++ "/").data ≠ [] := by
    rw [String.data_append]
    simp [show ("/" : String).data = ['/'] from rfl]
  have h1 : pyReplace (rn ++ "/" ++ joinParts (ds ++ [st ++ "." ++ ext])) (rn ++ "/") "" =
      joinParts (ds ++ [st ++ "." ++ ext]) :=
    pyReplace_strip (rn ++ "/") (joinParts (ds ++ [st ++ "." ++ ext])) hpat hocc
  have h2 : PyPath.parse (joinParts (ds ++ [st ++ "." ++ ext])) =
      ⟨false, ds ++ [st ++ "." ++ ext]⟩ :=
    parse_joinParts _ (by simp) hall
  have hsuf := (pySuffix_pyStem_of_shape st ext hst.1 hext.1 hst.2.2 hext.2.2).1
  have hstem := (pySuffix_pyStem_of_shape st ext hst.1 hext.1 hst.2.2 hext.2.2).2
  have hu0_data : (st ++ "--" ++ op).data = st.data ++ '-' :: '-' :: op.data := by
    rw [String.data_append, String.data_append, List.append_assoc]
    rfl
  have hu0_ne : (st ++ "--" ++ op) ≠ "" := by
    intro he
    have := congrArg String.data he
    rw [hu0_data] at this
    cases hsd : st.data with
    | nil => exact hstd_ne hsd
    | cons a b => rw [hsd] at this; simp at this
  have hu0_nodot : '.' ∉ (st ++ "--" ++ op).data := by
    rw [hu0_data]
    simp only [List.mem_append, List.mem_cons, not_or]
    exact ⟨hst.2.2, by simp, by simp, hop.2⟩
  have hu0_noslash : '/' ∉ (st ++ "--" ++ op).data := by
    rw [hu0_data]
    simp only [List.mem_append, List.mem_cons, not_or]
    exact ⟨hst.2.1, by simp, by simp, hop.1⟩
  have hdot_of_eq : ∀ u : String, u = "." → '.' ∈ u.data := by
    intro u he
    rw [he]
    exact List.mem_cons_self _ _
  have hu0_nedot : (st ++ "--" ++ op) ≠ "." :=
    fun he => hu0_nodot (hdot_of_eq _ he)
  have hutg_data : (st ++ "--" ++ op ++ "--" ++ tg).data =
      (st ++ "--" ++ op).data ++ '-' :: '-' :: tg.data := by
    rw [String.data_append, String.data_append, List.append_assoc]
    rfl
  have hutg_ne : (st ++ "--" ++ op ++ "--" ++ tg) ≠ "" := by
    intro he
    have := congrArg String.data he
    rw [hutg_data, hu0_data] at this
    cases hsd : st.data with
    | nil => exact hstd_ne hsd
    | cons a b => rw [hsd] at this; simp at this
  have hutg_nodot : '.' ∉ (st ++ "--" ++ op ++ "--" ++ tg).data := by
    rw [hutg_data]
    simp only [List.mem_append, List.mem_cons, not_or]
    exact ⟨hu0_nodot, by simp, by simp, htg.2⟩
  have hutg_noslash : '/' ∉ (st ++ "--" ++ op ++ "--" ++ tg).data := by
    rw [hutg_data]
    simp only [List.mem_append, List.mem_cons, not_or]
    exact ⟨hu0_noslash, by simp, by simp, htg.1⟩
  have hutg_nedot : (st ++ "--" ++ op ++ "--" ++ tg) ≠ "." :=
    fun he => hutg_nodot (hdot_of_eq _ he)
  have hrender : ∀ x : String, PyPath.render ⟨false, ds ++ [x]⟩ = joinParts (ds ++ [x]) := by
    intro x
    unfold PyPath.render
    have hempty : ∀ s : String, "" ++ s = s := by
      intro s
      apply String.ext
      rw [String.data_append]
      rfl
    simp [hempty]
  constructor
  · by_cases htg0 : tg = ""
    · subst htg0
      have hws := joinStr_withSuffix_eval ds (st ++ "--" ++ op) ext
        hu0_ne hu0_nedot hu0_noslash hu0_nodot hext.1 hext.2.1
      have heq : (st ++ "--" ++ op) ++ ("." ++ ext) =
          st ++ "--" ++ op ++ (if ("" : String) = "" then "" else "--" ++ "") ++ "." ++ ext := by
        apply String.ext
        simp [String.data_append]
      simp only [construct_filename, h1, h2, PyPath.name, PyPath.parent,
        getLastD_concat, List.dropLast_concat, hsuf, hstem, hws, hrender, heq]
      simp
      rw [hws]
      simp only [hrender]
      simp [String.append_assoc]
    · have hws := joinStr_withSuffix_eval ds (st ++ "--" ++ op ++ "--" ++ tg) ext
        hutg_ne hutg_nedot hutg_noslash hutg_nodot hext.1 hext.2.1
      have heq : (st ++ "--" ++ op ++ "--" ++ tg) ++ ("." ++ ext) =
          st ++ "--" ++ op ++ (if tg = "" then "" else "--" ++ tg) ++ "." ++ ext := by
        rw [if_neg htg0]
        apply String.ext
        simp [String.data_append]
      simp only [construct_filename, h1, h2, PyPath.name, PyPath.parent,
        getLastD_concat, List.dropLast_concat, hsuf, hstem, hrender]
      simp only [htg0, if_neg, if_pos]
      simp [htg0, hws, heq]
      exact hrender _
  · intro cp hne hex
    simp [construct_filename, hne, hex]

/-- Witness for C8 (amended) at a concrete template and settings. -/
theorem aggr_filename_derivation_witness :
    construct_filename (fun _ => false) ⟨none, "", "mean", "all"⟩
      ⟨"realization-33",
        "realization-33" ++ "/" ++
          joinParts (["iter-0", "share", "results", "maps"] ++ ["x" ++ "." ++ "gri"]),
        none⟩ =
      .ok (joinParts (["iter-0", "share", "results", "maps"] ++
        ["x" ++ "--" ++ "mean" ++
          (if ("all" : String) = "" then "" else "--" ++ "all") ++ "." ++ "gri"]), none) ∧
    construct_filename (fun _ => false) ⟨some "/scratch/other", "", "mean", "all"⟩
      ⟨"realization-33",
        "realization-33" ++ "/" ++
          joinParts (["iter-0", "share", "results", "maps"] ++ ["x" ++ "." ++ "gri"]),
        none⟩ = .error (.valueError (casepathMissingMsg "/scratch/other")) := by
  have h := aggr_filename_derivation (fun _ => false) "realization-33"
    ["iter-0", "share", "results", "maps"] "x" "gri" "mean" "all"
    (by decide) (by decide) (by decide) (by decide) (by decide) (by decide)
  exact ⟨h.1, h.2 "/scratch/other" (by decide) rfl⟩
